import Mathlib

/-!
# Verification of the crawlserv LLM batch client (src/src/AI/LLM.hpp)

A shallow embedding of the rate-limit-aware batch client for a
chat-completion HTTP API. Machine integers (`std::size_t`) are modelled as
`Nat` (no caller overflows them except where noted, the one wrap site is
modelled explicitly); the C++ `float` arithmetic of the token estimate is
idealised as exact rational arithmetic over `ℚ`; fallible operations
return `Option`/`Except`. Monotonic time points are modelled as `Nat`
milliseconds with `0` playing the role of the epoch ("unset").
-/

namespace LLMSpec

/-! ## Strings: C++ helpers used by the source

`substr pos len` clamps `len` to the end of the string, as `std::string::substr`
does; the source never calls it with `pos` beyond the end. -/

/-- `std::string::substr(pos, len)`. -/
def substr (s : String) (pos len : Nat) : String :=
  String.mk ((s.data.drop pos).take len)

/-- `std::string::substr(pos)`: the suffix from `pos`. -/
def substrFrom (s : String) (pos : Nat) : String :=
  String.mk (s.data.drop pos)

/-- `std::string::find(c, from)` on a character list, index relative to the
whole string; `none` is `npos`. -/
def findCharFromList (cs : List Char) (c : Char) (base : Nat) : Option Nat :=
  match cs with
  | [] => none
  | d :: rest => if d = c then some base else findCharFromList rest c (base + 1)

/-- `std::string::find(c)`. -/
def findChar (s : String) (c : Char) : Option Nat :=
  findCharFromList s.data c 0

/-- `std::string::find(c, pos)`. -/
def findCharFrom (s : String) (c : Char) (pos : Nat) : Option Nat :=
  match findCharFromList (s.data.drop pos) c 0 with
  | none => none
  | some i => some (pos + i)

/-- First index where `needle` occurs as a contiguous run, or `none` (`npos`). -/
def findSubList (cs needle : List Char) (base : Nat) : Option Nat :=
  match cs with
  | [] => if needle.isEmpty then some base else none
  | c :: rest =>
      if needle.isPrefixOf (c :: rest) then some base
      else findSubList rest needle (base + 1)

/-- `std::string::find(needle)` for a string needle. -/
def findSub (s needle : String) : Option Nat :=
  findSubList s.data needle.data 0

/-! ## LLM::toUL — `std::stoul` on the strings the source feeds it

`std::stoul` skips leading whitespace, reads the longest run of decimal
digits and stops at the first other character; with no digit at all it
throws `std::invalid_argument`.  `LLM::toUL` (release build, `NDEBUG`)
catches that and returns `0`.  Signs are not modelled: no value the source
parses (rate-limit header values, duration segments) carries one. -/

/-- Value of a list of decimal digit characters. -/
def digitsVal (ds : List Char) : Nat :=
  ds.foldl (fun a c => 10 * a + (c.toNat - 48)) 0

/-- `std::stoul`: `none` models the `std::invalid_argument` throw. -/
def stoulOpt (s : String) : Option Nat :=
  let t := s.data.dropWhile (fun c => c = ' ' ∨ c = '\t')
  let ds := t.takeWhile Char.isDigit
  if ds.isEmpty then none else some (digitsVal ds)

/-- `LLM::toUL` under `NDEBUG`: a failed conversion yields `0`. -/
def toUL (s : String) : Nat :=
  (stoulOpt s).getD 0

/-! ## LLM::parseTimeMs — duration strings from rate-limit headers -/

/-- Milliseconds per day / hour / minute / second (the source's constants). -/
def msPerDay : Nat := 86400000

def msPerHour : Nat := 3600000

def msPerMinute : Nat := 60000

def msPerSecond : Nat := 1000

/-- `LLM::parseTimeMs`: parses `<N>ms` or a composed
`[<D>d][<H>h][<M>m][<S>[.<F>]s]` duration into milliseconds.  The source
passes `substr` a second argument that is an absolute index rather than a
length (`substr(pos, hPos)` etc.); that is reproduced verbatim here.  In
the fractional branch the `size_t` difference `sPos - dotPos - 1` wraps
when the dot sits after the `s`; the wrapped length exceeds the string, so
`substr` clamps and takes the suffix, which the model writes out
explicitly. -/
def parseTimeMs (src : String) : Nat :=
  match findSub src "ms" with
  | some msPos => toUL (substr src 0 msPos)
  | none =>
    let dPos := findChar src 'd'
    let hPos := findChar src 'h'
    let mPos := findChar src 'm'
    let sPos := findChar src 's'
    let pos0 : Nat := 0
    let dayRes := match dPos with
      | some p => (toUL (substr src pos0 p), p + 1)
      | none => (0, pos0)
    let days := dayRes.1
    let pos1 := dayRes.2
    let hourRes := match hPos with
      | some p => (toUL (substr src pos1 p), p + 1)
      | none => (0, pos1)
    let hours := hourRes.1
    let pos2 := hourRes.2
    let minRes := match mPos with
      | some p => (toUL (substr src pos2 p), p + 1)
      | none => (0, pos2)
    let minutes := minRes.1
    let pos3 := minRes.2
    let secRes := match sPos with
      | some p =>
        match findCharFrom src '.' pos3 with
        | none => (toUL (substr src pos3 p), 0)
        | some dotPos =>
          let seconds := toUL (substr src pos3 (dotPos - pos3))
          let fracLen := if dotPos + 1 ≤ p then p - dotPos - 1
                         else 2 ^ 64 - (dotPos + 1 - p)
          let milliseconds := toUL (substr src (dotPos + 1) fracLen)
          (seconds, if milliseconds < 100 then milliseconds * 10 else milliseconds)
      | none => (0, 0)
    days * msPerDay + hours * msPerHour + minutes * msPerMinute
      + secRes.1 * msPerSecond + secRes.2

/-! ## The rate-limit ledger

The fields of `LLM` guarded by `limitsLock`.  `std::size_t` fields are
`Nat` (initialised to `Nat`-unbounded values by the caller; no wraparound
site exists: the guard in `checkLimits` keeps both subtractions in range).
`std::chrono::time_point` is a `Nat` of milliseconds since the epoch, the
default-constructed time point being `0`. -/

structure Ledger where
  isRequestLimitReset : Bool
  isTokenLimitReset : Bool
  requestLimit : Nat
  tokenLimit : Nat
  requestsRemaining : Nat
  tokensRemaining : Nat
  requestsMade : Nat
  tokensSent : Nat
  requestLimitTimeout : Nat
  tokenLimitTimeout : Nat
deriving Repr, DecidableEq

/-- The first "reset limits if out of date" conditional at the top of the
`LLM::checkLimits` loop body, at current time `now`: a set, passed request
deadline not yet acted on restores `requestsRemaining` to the limit. -/
def applyRequestReset (now : Nat) (s : Ledger) : Ledger :=
  if ¬ s.isRequestLimitReset ∧ s.requestLimitTimeout > 0 ∧ s.requestLimitTimeout < now
  then { s with isRequestLimitReset := true, requestsRemaining := s.requestLimit }
  else s

/-- The second conditional: the token-budget counterpart. -/
def applyTokenReset (now : Nat) (s : Ledger) : Ledger :=
  if ¬ s.isTokenLimitReset ∧ s.tokenLimitTimeout > 0 ∧ s.tokenLimitTimeout < now
  then { s with isTokenLimitReset := true, tokensRemaining := s.tokenLimit }
  else s

/-- Both resets, in the order the source runs them. -/
def applyResets (now : Nat) (s : Ledger) : Ledger :=
  applyTokenReset now (applyRequestReset now s)

/-- One iteration of the `LLM::checkLimits` waiting loop for a text of
length `textLength` with ratio `tokensPerCharacter`: apply due resets,
then either admit (debit one request and the token estimate, `true`) or
leave the budgets alone (`false`, the caller sleeps `msSleepOnLimit` and
retries).  The C++ `float` expression `textLength * tokensPerCharacter`
and the mixed `size_t`/`float` comparison and subtraction are idealised
over `ℚ`; the store back into the `size_t` field truncates, which on the
in-range nonnegative difference is `Int.floor`. -/
def checkLimitsStep (tokensPerCharacter : ℚ) (textLength : Nat) (now : Nat)
    (s : Ledger) : Ledger × Bool :=
  let tokens : ℚ := (textLength : ℚ) * tokensPerCharacter
  let t := applyResets now s
  if (t.requestsRemaining > t.requestsMade)
      ∧ ((t.tokensRemaining : ℚ) > tokens + (t.tokensSent : ℚ))
  then ({ t with
            requestsRemaining := t.requestsRemaining - 1,
            tokensRemaining := (⌊(t.tokensRemaining : ℚ) - tokens⌋).toNat },
        true)
  else (t, false)

/-- `LLM::limitsReceived`: ingest the six server-advertised values at time
`now`; deadlines become `now` plus the parsed reset durations, the
in-flight counters are zeroed and both reset flags cleared. -/
def limitsReceived (limitRequests limitTokens remainingRequests remainingTokens
    resetRequests resetTokens now : Nat) : Ledger where
  isRequestLimitReset := false
  isTokenLimitReset := false
  requestLimit := limitRequests
  tokenLimit := limitTokens
  requestsRemaining := remainingRequests
  tokensRemaining := remainingTokens
  requestsMade := 0
  tokensSent := 0
  requestLimitTimeout := now + resetRequests
  tokenLimitTimeout := now + resetTokens

/-- A sequence of `checkLimits` loop iterations (each a triple of ratio,
text length and current time) folded over the ledger, keeping only the
state.  This is the serialisation of the ledger transitions between two
header ingests: `limitsLock` makes each iteration atomic. -/
def runSteps (trace : List (ℚ × Nat × Nat)) (s : Ledger) : Ledger :=
  trace.foldl (fun st p => (checkLimitsStep p.1 p.2.1 p.2.2 st).1) s

/-! ## JSON values

A minimal model of the rapidjson documents the source inspects and builds.
Member lookup (`HasMember` / `operator[]`) finds the first member with the
given name; on a value that is not an object the model returns `none`
(the source only queries members of values it has checked, or that the
API contract makes objects). -/

inductive Json where
  | null
  | bool (b : Bool)
  | num (n : Nat)
  | str (s : String)
  | arr (elems : List Json)
  | obj (members : List (String × Json))
deriving Repr

/-- Member lookup: `HasMember`/`operator[]` combined, `none` when absent
or when the value is not an object. -/
def Json.find : Json → String → Option Json
  | .obj ms, k => ms.lookup k
  | _, _ => none

/-- `IsString`. -/
def Json.isStr : Json → Bool
  | .str _ => true
  | _ => false

/-! ## LLM::apiRequest — the error surface of a parsed response body -/

/-- The generic message thrown when the `error` member is malformed. -/
def unknownErrorMsg : String :=
  "API used for large-language models returned an unknown error"

/-- The error check of `LLM::apiRequest` on the parsed body: an `error`
member that is an object with a string `message` fails with that message,
prefixed `[<type>] ` when a string `type` is also present; an `error`
member of any other shape fails with the generic message; no `error`
member passes.  (The C++ throws; `Except.error` models the throw.) -/
def errorCheck (jsonReply : Json) : Except String Unit :=
  match jsonReply.find "error" with
  | none => Except.ok ()
  | some e =>
    match e.find "message" with
    | some (Json.str msg) =>
      match e.find "type" with
      | some (Json.str ty) => Except.error ("[" ++ ty ++ "] " ++ msg)
      | _ => Except.error msg
    | _ => Except.error unknownErrorMsg

/-! ## LLM::threadFunction — result extraction from the response body -/

/-- The three shape checks of `LLM::threadFunction` on the reply, then the
extraction of `choices[0].message.content`.  (The C++ messages carry the
stringified reply as a suffix; the model keeps the fixed part.) -/
def extractContent (jsonReply : Json) : Except String String :=
  match jsonReply.find "choices" with
  | some (Json.arr (first :: _)) =>
    (match first.find "message" with
     | some (Json.obj ms) =>
       (match (Json.obj ms).find "content" with
        | some (Json.str content) => Except.ok content
        | _ => Except.error
            "Could not parse result: first choice has no or invalid \"message\".\"content\"")
     | _ => Except.error "Could not parse result: first choice has no or invalid \"message\"")
  | _ => Except.error "Could not parse result: no \"choices\" given"

/-! ## Struct::LLMData and LLM::jsonRequest — the request builder -/

/-- `Struct::LLMData`: the per-job snapshot handed to a worker. -/
structure LLMData where
  maxTokens : Nat
  endPoint : String
  apiKey : String
  model : String
  prompt : String
  text : String
  httpHeaders : List String
deriving Repr, DecidableEq

/-- Modelled from the spec: `Helper::Json::initObject` (Helper/Json.hpp is
not among the repository's files) creates an empty JSON object. -/
def initObject : Json := Json.obj []

/-- Modelled from the spec: `Helper::Json::addKeyValuePair` (missing
Helper/Json.hpp) adds one key/value member to the object. -/
def addKeyValuePair (j : Json) (k : String) (v : Json) : Json :=
  match j with
  | Json.obj ms => Json.obj (ms ++ [(k, v)])
  | _ => j

/-- Modelled from the spec: `Helper::Json::addKeyValuePairs` (missing
Helper/Json.hpp) appends one object built from the string pairs to the
array member named `k`, creating that array when absent — spec §4.5 shows
the result as `messages: [ {role, content}, ... ]` with the system entry
first when present. -/
def addKeyValuePairs (j : Json) (k : String) (pairs : List (String × String)) : Json :=
  match j with
  | Json.obj ms =>
    let entry := Json.obj (pairs.map (fun p => (p.1, Json.str p.2)))
    (match ms.lookup k with
     | some (Json.arr xs) =>
       Json.obj (ms.map (fun kv => if kv.1 = k then (k, Json.arr (xs ++ [entry])) else kv))
     | _ => Json.obj (ms ++ [(k, Json.arr [entry])]))
  | _ => j

/-- `LLM::jsonRequest`: the outgoing body.  The C++ returns the body as a
string, the empty string meaning "no body"; `none` models that empty
string (a stringified object is never empty). -/
def jsonRequest (data : LLMData) : Option Json :=
  if data.model = "" ∨ data.text = "" then none
  else
    let j1 := addKeyValuePair initObject "model" (Json.str data.model)
    let j2 :=
      if data.prompt = "" then j1
      else addKeyValuePairs j1 "messages" [("role", "system"), ("content", data.prompt)]
    let j3 := addKeyValuePairs j2 "messages" [("role", "user"), ("content", data.text)]
    some (if data.maxTokens > 0
          then addKeyValuePair j3 "max_completion_tokens" (Json.num data.maxTokens)
          else j3)

/-- Does a body carry a system message?  True when some member of the
`messages` array has `"role": "system"`. -/
def hasSystemMessage (j : Json) : Bool :=
  match j.find "messages" with
  | some (Json.arr xs) =>
    xs.any (fun m => match m.find "role" with
                     | some (Json.str r) => r = "system"
                     | _ => false)
  | _ => false

/-- The header list `LLM::apiRequest` builds: always the bearer header;
`Content-Type` and the configured extra headers only when the built body
is non-empty. -/
def requestHeaderList (data : LLMData) : List String :=
  ("Authorization: Bearer " ++ data.apiKey) ::
    (match jsonRequest data with
     | some _ => "Content-Type: application/json" :: data.httpHeaders
     | none => [])

/-! ## LLM::parseHeader and the rate-limit header scan of LLM::apiRequest -/

/-- `LLM::parseHeader` on one already-lowercased header line: `none` when
the line does not start with `name` or the rest is empty (the C++ then
leaves `to`/`isFoundTo` alone); otherwise the parsed value — a duration
for the two reset headers, `toUL` for the four counts.  A malformed value
is *not* `none`: release-build `toUL` turns it into `0`. -/
def parseHeaderOpt (header name : String) (isParseTime : Bool) : Option Nat :=
  if substr header 0 name.length ≠ name then none
  else
    let value := substrFrom header name.length
    if value = "" then none
    else some (if isParseTime then parseTimeMs value else toUL value)

/-- The per-name result of the header loop in `LLM::apiRequest`: the last
matching header wins, `none` when no header matched with a non-empty
value (`isFoundTo` stayed false). -/
def scanHeaders (headers : List String) (name : String) (isParseTime : Bool) : Option Nat :=
  headers.foldl
    (fun acc h =>
      match parseHeaderOpt h name isParseTime with
      | some v => some v
      | none => acc)
    none

/-- The six header names (with their `isParseTime` flag), in the order the
source declares them. -/
def ratelimitHeaderNames : List (String × Bool) :=
  [("x-ratelimit-limit-requests: ", false),
   ("x-ratelimit-limit-tokens: ", false),
   ("x-ratelimit-remaining-requests: ", false),
   ("x-ratelimit-remaining-tokens: ", false),
   ("x-ratelimit-reset-requests: ", true),
   ("x-ratelimit-reset-tokens: ", true)]

/-- The value the header loop leaves in one of the six `std::size_t`
variables: they are zero-initialised and only overwritten on a match. -/
def scanHeadersVal (headers : List String) (name : String) (isParseTime : Bool) : Nat :=
  (scanHeaders headers name isParseTime).getD 0

/-- The "update limits" decision of `LLM::apiRequest`: the six parsed
values when every `isFound` flag is set, otherwise `none` (no update). -/
def ratelimitUpdate (headers : List String) :
    Option (Nat × Nat × Nat × Nat × Nat × Nat) :=
  if (scanHeaders headers "x-ratelimit-limit-requests: " false).isSome
      ∧ (scanHeaders headers "x-ratelimit-limit-tokens: " false).isSome
      ∧ (scanHeaders headers "x-ratelimit-remaining-requests: " false).isSome
      ∧ (scanHeaders headers "x-ratelimit-remaining-tokens: " false).isSome
      ∧ (scanHeaders headers "x-ratelimit-reset-requests: " true).isSome
      ∧ (scanHeaders headers "x-ratelimit-reset-tokens: " true).isSome
  then some (scanHeadersVal headers "x-ratelimit-limit-requests: " false,
             scanHeadersVal headers "x-ratelimit-limit-tokens: " false,
             scanHeadersVal headers "x-ratelimit-remaining-requests: " false,
             scanHeadersVal headers "x-ratelimit-remaining-tokens: " false,
             scanHeadersVal headers "x-ratelimit-reset-requests: " true,
             scanHeadersVal headers "x-ratelimit-reset-tokens: " true)
  else none

/-- The ledger after `LLM::apiRequest` has processed the response headers
at time `now`: `limitsReceived` on a full set of six values, the previous
ledger otherwise. -/
def ingestHeaders (headers : List String) (now : Nat) (s : Ledger) : Ledger :=
  match ratelimitUpdate headers with
  | some (a, b, c, d, e, f) => limitsReceived a b c d e f now
  | none => s

/-- A header line provides a value for `name` when it starts with `name`
and something follows. -/
def HeaderProvides (h name : String) : Prop :=
  substr h 0 name.length = name ∧ substrFrom h name.length ≠ ""

/-! ## LLM::run and the dispatcher (claims C1 and C9)

The facade state the claims touch.  `run` is synchronous: the concurrent
workers' writes to `results` are serialised by `resultsLock`, so a
completed run is one interleaving, modelled as the list `order` of text
indices in the order their workers stored results (every dispatched index
appears, since `run` joins every worker).  The API is an oracle from the
input text to the parsed reply. -/

structure Client where
  currentModel : String
  maxThreads : Nat
  inputs : List String
  results : List String
deriving Repr

/-- `LLM::calculateMaxThreads`: `0` falls back to the hardware concurrency
and then to `1`. -/
def calculateMaxThreads (maxThreads hardwareConcurrency : Nat) : Nat :=
  let m1 := if maxThreads = 0 then hardwareConcurrency else maxThreads
  if m1 = 0 then 1 else m1

/-- The part of `LLM::threadFunction` that turns text index `i` into the
string stored at result index `i`: the reply for `inputs[i]`, its content
extracted. -/
def workerResult (api : String → Json) (inputs : List String) (i : Nat) :
    Except String String :=
  extractContent (api (inputs.getD i ""))

/-- The workers' serialised writes: each completion stores its content at
its own text index (`results.at(textIndex) = result` under
`resultsLock`); a failed extraction aborts the run. -/
def writeAll (api : String → Json) (inputs : List String) :
    List Nat → List String → Except String (List String)
  | [], acc => Except.ok acc
  | i :: rest, acc =>
    match workerResult api inputs i with
    | Except.ok content => writeAll api inputs rest (acc.set i content)
    | Except.error e => Except.error e

/-- `LLM::run`: fail when no model is selected, resolve the worker count,
allocate `results` with one empty slot per input, dispatch and join. -/
def runModel (api : String → Json) (order : List Nat) (hardwareConcurrency : Nat)
    (c : Client) : Except String Client :=
  if c.currentModel = "" then Except.error "No model has been selected"
  else
    match writeAll api c.inputs order (List.replicate c.inputs.length "") with
    | Except.ok res =>
      Except.ok { c with
                    maxThreads := calculateMaxThreads c.maxThreads hardwareConcurrency,
                    results := res }
    | Except.error e => Except.error e

/-! ## Concrete values used to instantiate the general theorems -/

/-- The §8 scenario-5 response body:
`{"error":{"type":"invalid_request_error","message":"bad"}}`. -/
def errReplyExample : Json :=
  Json.obj [("error", Json.obj [("type", Json.str "invalid_request_error"),
                                ("message", Json.str "bad")])]

/-- A ledger with room to spare: both budgets at 100, no deadline set. -/
def bigLedger : Ledger :=
  { isRequestLimitReset := false, isTokenLimitReset := false,
    requestLimit := 1000, tokenLimit := 1000,
    requestsRemaining := 100, tokensRemaining := 100,
    requestsMade := 0, tokensSent := 0,
    requestLimitTimeout := 0, tokenLimitTimeout := 0 }

/-- The snapshot of the `GET models` catalog fetch (empty model and text),
here with configured extra headers to show they are dropped. -/
def modelsFetchData : LLMData :=
  { maxTokens := 0, endPoint := "https://api.openai.com/v1/", apiKey := "k",
    model := "", prompt := "", text := "",
    httpHeaders := ["OpenAI-Organization: org", "OpenAI-Project: proj"] }

/-- A reply whose `choices[0].message.content` is `"hi"` (§8 scenario 2). -/
def sampleReply : Json :=
  Json.obj [("choices",
    Json.arr [Json.obj [("message", Json.obj [("content", Json.str "hi")])]])]

/-- An API oracle answering every input with `sampleReply`. -/
def sampleApi : String → Json := fun _ => sampleReply

/-- A client about to run on the single input `"hello"`. -/
def sampleClient : Client :=
  { currentModel := "gpt-x", maxThreads := 2, inputs := ["hello"], results := [] }

/-- `sampleClient` after its run: `results == ["hi"]`. -/
def sampleClientAfter : Client :=
  { currentModel := "gpt-x", maxThreads := 2, inputs := ["hello"], results := ["hi"] }

/-!
# Theorems

Helper lemmas first, then one theorem per claim (C1–C10), each with its
witness or counterexample where called for.
-/

/-! ## Helper lemmas on the ledger -/

/-- The first reset leaves both deadlines alone. -/
lemma applyRequestReset_timeouts (now : Nat) (s : Ledger) :
    (applyRequestReset now s).requestLimitTimeout = s.requestLimitTimeout ∧
    (applyRequestReset now s).tokenLimitTimeout = s.tokenLimitTimeout := by
  unfold applyRequestReset
  split <;> simp

/-- The second reset leaves both deadlines alone. -/
lemma applyTokenReset_timeouts (now : Nat) (s : Ledger) :
    (applyTokenReset now s).requestLimitTimeout = s.requestLimitTimeout ∧
    (applyTokenReset now s).tokenLimitTimeout = s.tokenLimitTimeout := by
  unfold applyTokenReset
  split <;> simp

/-- Applying the resets leaves both deadlines alone. -/
lemma applyResets_timeouts (now : Nat) (s : Ledger) :
    (applyResets now s).requestLimitTimeout = s.requestLimitTimeout ∧
    (applyResets now s).tokenLimitTimeout = s.tokenLimitTimeout := by
  unfold applyResets
  rw [(applyTokenReset_timeouts now _).1, (applyTokenReset_timeouts now _).2,
      (applyRequestReset_timeouts now s).1, (applyRequestReset_timeouts now s).2]
  exact ⟨rfl, rfl⟩

/-- Before either deadline has passed, neither reset fires. -/
lemma applyResets_of_le (now : Nat) (s : Ledger)
    (h1 : now ≤ s.requestLimitTimeout) (h2 : now ≤ s.tokenLimitTimeout) :
    applyResets now s = s := by
  unfold applyResets applyRequestReset
  rw [if_neg (fun h => absurd h.2.2 (by omega))]
  unfold applyTokenReset
  rw [if_neg (fun h => absurd h.2.2 (by omega))]

/-- One admission-loop iteration with a nonnegative ratio never raises
either budget above its post-reset value and never moves a deadline. -/
lemma checkLimitsStep_le (r : ℚ) (L now : Nat) (s : Ledger) (hr : 0 ≤ r) :
    (checkLimitsStep r L now s).1.requestsRemaining ≤ (applyResets now s).requestsRemaining ∧
    (checkLimitsStep r L now s).1.tokensRemaining ≤ (applyResets now s).tokensRemaining ∧
    (checkLimitsStep r L now s).1.requestLimitTimeout = s.requestLimitTimeout ∧
    (checkLimitsStep r L now s).1.tokenLimitTimeout = s.tokenLimitTimeout := by
  set t := applyResets now s with ht
  have htime : t.requestLimitTimeout = s.requestLimitTimeout ∧
      t.tokenLimitTimeout = s.tokenLimitTimeout := by
    rw [ht]
    exact applyResets_timeouts now s
  set x : ℚ := (L : ℚ) * r with hx
  by_cases hc : (t.requestsRemaining > t.requestsMade)
      ∧ (((t.tokensRemaining : ℚ)) > x + (t.tokensSent : ℚ))
  · have hstep : (checkLimitsStep r L now s).1
        = { t with requestsRemaining := t.requestsRemaining - 1,
                   tokensRemaining := (⌊(t.tokensRemaining : ℚ) - x⌋).toNat } := by
      simp [checkLimitsStep, ← ht, ← hx, hc]
    rw [hstep]
    refine ⟨by simp, ?_, by simp [htime.1], by simp [htime.2]⟩
    simp only
    have hx0 : 0 ≤ x := by rw [hx]; positivity
    have hfl : ⌊(t.tokensRemaining : ℚ) - x⌋ ≤ (t.tokensRemaining : ℤ) := by
      calc ⌊(t.tokensRemaining : ℚ) - x⌋ ≤ ⌊(t.tokensRemaining : ℚ)⌋ :=
        Int.floor_le_floor (by linarith)
      _ = (t.tokensRemaining : ℤ) := Int.floor_natCast _
    omega
  · have hstep : (checkLimitsStep r L now s).1 = t := by
      simp [checkLimitsStep, ← ht, ← hx, hc]
    rw [hstep]
    exact ⟨le_refl _, le_refl _, htime.1, htime.2⟩

/-- Over a whole trace of admission iterations that all happen no later
than both deadlines, the budgets never rise and the deadlines never
move. -/
lemma runSteps_le (trace : List (ℚ × Nat × Nat)) (s : Ledger)
    (hr : ∀ p ∈ trace, 0 ≤ p.1)
    (hnow : ∀ p ∈ trace, p.2.2 ≤ s.requestLimitTimeout ∧ p.2.2 ≤ s.tokenLimitTimeout) :
    (runSteps trace s).requestsRemaining ≤ s.requestsRemaining ∧
    (runSteps trace s).tokensRemaining ≤ s.tokensRemaining ∧
    (runSteps trace s).requestLimitTimeout = s.requestLimitTimeout ∧
    (runSteps trace s).tokenLimitTimeout = s.tokenLimitTimeout := by
  induction trace generalizing s with
  | nil => exact ⟨le_refl _, le_refl _, rfl, rfl⟩
  | cons p rest ih =>
    have hres : applyResets p.2.2 s = s :=
      applyResets_of_le _ _ (hnow p (by simp)).1 (hnow p (by simp)).2
    have hstep := checkLimitsStep_le p.1 p.2.1 p.2.2 s (hr p (by simp))
    rw [hres] at hstep
    set s1 := (checkLimitsStep p.1 p.2.1 p.2.2 s).1 with hs1
    have hrun : runSteps (p :: rest) s = runSteps rest s1 := by
      simp [runSteps, ← hs1]
    have ihr := ih s1 (fun q hq => hr q (by simp [hq]))
      (fun q hq => by
        rw [hstep.2.2.1, hstep.2.2.2]
        exact hnow q (by simp [hq]))
    rw [hrun]
    refine ⟨le_trans ihr.1 hstep.1, le_trans ihr.2.1 hstep.2.1, ?_, ?_⟩
    · rw [ihr.2.2.1, hstep.2.2.1]
    · rw [ihr.2.2.2, hstep.2.2.2]

/-! ## Helper lemmas on the dispatcher and the header scan -/

/-- What a completed write sequence leaves in the results: every index
written somewhere in the order holds its own worker's extracted content,
untouched indices keep their initial value, and the length is
preserved. -/
lemma writeAll_ok (api : String → Json) (inputs : List String) :
    ∀ (order : List Nat) (acc res : List String),
      writeAll api inputs order acc = Except.ok res →
      res.length = acc.length ∧
      ∀ i, i < acc.length →
        (i ∈ order → workerResult api inputs i = Except.ok (res.getD i "")) ∧
        (i ∉ order → res.getD i "" = acc.getD i "")
  | [], acc, res, h => by
    simp [writeAll] at h
    subst h
    exact ⟨rfl, fun i hi => ⟨fun hmem => absurd hmem (List.not_mem_nil i), fun _ => rfl⟩⟩
  | j :: rest, acc, res, h => by
    rw [writeAll] at h
    cases hw : workerResult api inputs j with
    | error e => rw [hw] at h; exact absurd h (by simp)
    | ok c =>
      rw [hw] at h
      have ih := writeAll_ok api inputs rest (acc.set j c) res h
      have hlen : (acc.set j c).length = acc.length := List.length_set acc j c
      refine ⟨by rw [ih.1, hlen], fun i hi => ⟨fun hmem => ?_, fun hmem => ?_⟩⟩
      · by_cases hir : i ∈ rest
        · exact ((ih.2 i (by omega)).1) hir
        · have hij : i = j := by
            rcases List.mem_cons.mp hmem with h1 | h1
            · exact h1
            · exact absurd h1 hir
          subst hij
          have hres : res.getD i "" = (acc.set i c).getD i "" := (ih.2 i (by omega)).2 hir
          rw [hres, List.getD_eq_getElem?_getD, List.getElem?_set_eq_of_lt _ hi]
          exact hw ▸ rfl
      · have hij : i ≠ j := fun he => hmem (he ▸ List.mem_cons_self j rest)
        have hir : i ∉ rest := fun hrr => hmem (List.mem_cons_of_mem j hrr)
        have hres : res.getD i "" = (acc.set j c).getD i "" := (ih.2 i (by omega)).2 hir
        rw [hres, List.getD_eq_getElem?_getD, List.getElem?_set_ne (Ne.symm hij),
          ← List.getD_eq_getElem?_getD]

/-- `parseHeader` yields a value exactly when the line starts with the
name and something follows it. -/
lemma parseHeaderOpt_isSome (h name : String) (isParseTime : Bool) :
    (parseHeaderOpt h name isParseTime).isSome = true ↔ HeaderProvides h name := by
  rw [parseHeaderOpt, HeaderProvides]
  by_cases h1 : substr h 0 name.length = name
  · by_cases h2 : substrFrom h name.length = ""
    · simp [h1, h2]
    · simp [h1, h2]
  · simp [h1]

/-- Unrolling the header loop: the `isFound` flag for a name ends up set
iff it was set before or some header provides the name. -/
lemma scanHeaders_aux (name : String) (isParseTime : Bool) :
    ∀ (hs : List String) (acc : Option Nat),
      ((hs.foldl
          (fun acc h =>
            match parseHeaderOpt h name isParseTime with
            | some v => some v
            | none => acc)
          acc).isSome = true
        ↔ acc.isSome = true ∨ ∃ h ∈ hs, HeaderProvides h name)
  | [], acc => by simp [List.foldl]
  | h :: rest, acc => by
    rw [List.foldl_cons]
    rw [scanHeaders_aux name isParseTime rest]
    cases hp : parseHeaderOpt h name isParseTime with
    | some v =>
      have hprov : HeaderProvides h name :=
        (parseHeaderOpt_isSome h name isParseTime).mp (by rw [hp]; rfl)
      simp [hprov]
    | none =>
      have hnoprov : ¬ HeaderProvides h name := fun hc => by
        have := (parseHeaderOpt_isSome h name isParseTime).mpr hc
        rw [hp] at this
        exact absurd this (by simp)
      simp [hnoprov]

/-- The header loop finds a value for a name iff some header line
provides it. -/
lemma scanHeaders_isSome (hs : List String) (name : String) (isParseTime : Bool) :
    (scanHeaders hs name isParseTime).isSome = true ↔ ∃ h ∈ hs, HeaderProvides h name := by
  rw [scanHeaders, scanHeaders_aux name isParseTime hs none]
  simp

/-! ## The claims -/

/-- C1: for every completed `run` over `N` added inputs, whatever order
the workers stored their results in (the run dispatches every index and
each worker writes only at its own text index), the results vector has
length `N` and `results[i]` is exactly the content extracted from the
API response generated for `inputs[i]`. -/
theorem run_results_correspond (api : String → Json) (order : List Nat)
    (hardwareConcurrency : Nat) (c c2 : Client)
    (hcover : ∀ i, i < c.inputs.length → i ∈ order)
    (hrun : runModel api order hardwareConcurrency c = Except.ok c2) :
    c2.results.length = c.inputs.length ∧
    ∀ i, i < c.inputs.length →
      workerResult api c.inputs i = Except.ok (c2.results.getD i "") := by
  by_cases hm : c.currentModel = ""
  · rw [runModel, if_pos hm] at hrun
    exact absurd hrun (by simp)
  · rw [runModel, if_neg hm] at hrun
    cases hw : writeAll api c.inputs order (List.replicate c.inputs.length "") with
    | error e => rw [hw] at hrun; exact absurd hrun (by simp)
    | ok res =>
      rw [hw] at hrun
      simp only [Except.ok.injEq] at hrun
      have hspec := writeAll_ok api c.inputs order (List.replicate c.inputs.length "") res hw
      have hlenrep : (List.replicate c.inputs.length "").length = c.inputs.length :=
        List.length_replicate _ _
      have hres : c2.results = res := by rw [← hrun]
      rw [hres]
      exact ⟨by rw [hspec.1, hlenrep],
        fun i hi => (hspec.2 i (by omega)).1 (hcover i hi)⟩

/-- C1 witness: one input `"hello"`, an oracle answering with content
`"hi"`, completion order `[0]` — the run succeeds with `results = ["hi"]`. -/
theorem run_results_correspond_witness :
    (∀ i, i < sampleClient.inputs.length → i ∈ [0]) ∧
    runModel sampleApi [0] 4 sampleClient = Except.ok sampleClientAfter ∧
    (sampleClientAfter.results.length = sampleClient.inputs.length ∧
      ∀ i, i < sampleClient.inputs.length →
        workerResult sampleApi sampleClient.inputs i
          = Except.ok (sampleClientAfter.results.getD i "")) := by
  have hcover : ∀ i, i < sampleClient.inputs.length → i ∈ [0] := by decide
  have hrun : runModel sampleApi [0] 4 sampleClient = Except.ok sampleClientAfter := rfl
  exact ⟨hcover, hrun,
    run_results_correspond sampleApi [0] 4 sampleClient sampleClientAfter hcover hrun⟩

/-- C2 counterexample: the claim maps `"2.5s"` to 2500 ms, but the parser
multiplies a sub-second fraction below 100 by ten only once, so `"2.5s"`
parses to 2050 ms, not 2500. -/
theorem parseTimeMs_frac_cex : ¬ (parseTimeMs "2.5s" = 2500) := by decide

/-- C2 as amended: the whole-unit examples parse as documented
(`6m0s → 360000`, `1s → 1000`, `500ms → 500`, `2m30s → 150000`,
`1h → 3600000`), but a seconds fraction is parsed as a plain number and
multiplied by 10 exactly when its value is below 100 — never by 100 — so
`2.5s → 2050` and `1.2s → 1020` (and `0.05s → 50`, `0.200s → 200`);
`1s200ms` hits the `<N>ms` fast path at the first `"ms"` occurrence and
`stoul` stops at the `s`, giving 1. -/
theorem parseTimeMs_examples :
    parseTimeMs "6m0s" = 360000 ∧ parseTimeMs "1s" = 1000 ∧
    parseTimeMs "500ms" = 500 ∧ parseTimeMs "2m30s" = 150000 ∧
    parseTimeMs "1h" = 3600000 ∧ parseTimeMs "2.5s" = 2050 ∧
    parseTimeMs "1.2s" = 1020 ∧ parseTimeMs "1s200ms" = 1 ∧
    parseTimeMs "0.05s" = 50 ∧ parseTimeMs "0.200s" = 200 := by decide

/-- C3: a worker admitted by one pass of the admission check has debited
exactly one request and exactly `⌈len(text) * tokensPerCharacter⌉` tokens
from the (post-reset) remaining budgets, for every text length and every
positive ratio. -/
theorem checkLimits_debits (tokensPerCharacter : ℚ) (textLength now : Nat) (s : Ledger)
    (hr : 0 < tokensPerCharacter)
    (hadm : (checkLimitsStep tokensPerCharacter textLength now s).2 = true) :
    (checkLimitsStep tokensPerCharacter textLength now s).1.requestsRemaining + 1
      = (applyResets now s).requestsRemaining ∧
    (checkLimitsStep tokensPerCharacter textLength now s).1.tokensRemaining
        + (⌈(textLength : ℚ) * tokensPerCharacter⌉).toNat
      = (applyResets now s).tokensRemaining := by
  set t := applyResets now s with ht
  set x : ℚ := (textLength : ℚ) * tokensPerCharacter with hx
  by_cases hc : (t.requestsRemaining > t.requestsMade)
      ∧ (((t.tokensRemaining : ℚ)) > x + (t.tokensSent : ℚ))
  · have hstep : (checkLimitsStep tokensPerCharacter textLength now s).1
        = { t with requestsRemaining := t.requestsRemaining - 1,
                   tokensRemaining := (⌊(t.tokensRemaining : ℚ) - x⌋).toNat } := by
      simp [checkLimitsStep, ← ht, ← hx, hc]
    rw [hstep]
    constructor
    · simp
      omega
    · simp only
      have hx0 : 0 ≤ x := by
        rw [hx]
        positivity
      have hceil0 : 0 ≤ ⌈x⌉ := Int.ceil_nonneg hx0
      have hxle : x ≤ (t.tokensRemaining : ℚ) := by
        have h0 : (0 : ℚ) ≤ (t.tokensSent : ℚ) := Nat.cast_nonneg _
        have := hc.2
        linarith
      have hceilR : ⌈x⌉ ≤ (t.tokensRemaining : ℤ) := by
        rw [Int.ceil_le]
        push_cast
        exact hxle
      have hfloor : ⌊(t.tokensRemaining : ℚ) - x⌋ = (t.tokensRemaining : ℤ) - ⌈x⌉ := by
        rw [sub_eq_add_neg]
        have hcast : ((t.tokensRemaining : ℤ) : ℚ) = (t.tokensRemaining : ℚ) := by
          push_cast
          rfl
        rw [← hcast, Int.floor_int_add, Int.floor_neg]
        ring
      rw [hfloor]
      omega
  · exfalso
    simp [checkLimitsStep, ← ht, ← hx, hc] at hadm

/-- C3 witness: ratio 3, text length 1, on a ledger with both budgets at
100 — the admitted pass leaves 99 requests and 97 tokens. -/
theorem checkLimits_debits_witness :
    (0 : ℚ) < 3 ∧ (checkLimitsStep 3 1 0 bigLedger).2 = true ∧
    ((checkLimitsStep 3 1 0 bigLedger).1.requestsRemaining + 1
        = (applyResets 0 bigLedger).requestsRemaining ∧
      (checkLimitsStep 3 1 0 bigLedger).1.tokensRemaining + (⌈(1 : ℚ) * 3⌉).toNat
        = (applyResets 0 bigLedger).tokensRemaining) := by
  have h1 : (0 : ℚ) < 3 := by norm_num
  have h2 : (checkLimitsStep 3 1 0 bigLedger).2 = true := by
    norm_num [checkLimitsStep, applyResets, applyRequestReset, applyTokenReset, bigLedger]
  have h3 := checkLimits_debits 3 1 0 bigLedger h1 h2
  have hcast : ((1 : Nat) : ℚ) = (1 : ℚ) := by norm_num
  exact ⟨h1, h2, by rw [← hcast]; exact h3⟩

/-- C4: one pass of the admission check succeeds exactly when, after the
due resets, `requestsRemaining` strictly exceeds the in-flight request
counter and `tokensRemaining` strictly exceeds the token estimate plus
the in-flight token counter; an admitted pass thus never sees a zero
request budget or a token budget at or below the estimate, and a failed
pass leaves the (reset-adjusted) ledger unchanged, the worker sleeping
and retrying. -/
theorem checkLimits_admission (tokensPerCharacter : ℚ) (textLength now : Nat) (s : Ledger) :
    ((checkLimitsStep tokensPerCharacter textLength now s).2 = true ↔
      ((applyResets now s).requestsMade < (applyResets now s).requestsRemaining ∧
        (textLength : ℚ) * tokensPerCharacter + ((applyResets now s).tokensSent : ℚ)
          < ((applyResets now s).tokensRemaining : ℚ))) ∧
    ((checkLimitsStep tokensPerCharacter textLength now s).2 = true →
      (applyResets now s).requestsRemaining ≠ 0 ∧
      (textLength : ℚ) * tokensPerCharacter < ((applyResets now s).tokensRemaining : ℚ)) ∧
    ((checkLimitsStep tokensPerCharacter textLength now s).2 = false →
      (checkLimitsStep tokensPerCharacter textLength now s).1 = applyResets now s) := by
  set t := applyResets now s with ht
  by_cases hc : (t.requestsRemaining > t.requestsMade)
      ∧ (((t.tokensRemaining : ℚ))
          > (textLength : ℚ) * tokensPerCharacter + (t.tokensSent : ℚ))
  · refine ⟨?_, ?_, ?_⟩
    · simp [checkLimitsStep, ← ht, hc]
    · intro _
      refine ⟨by omega, ?_⟩
      have h0 : (0 : ℚ) ≤ (t.tokensSent : ℚ) := Nat.cast_nonneg _
      have := hc.2
      linarith
    · intro hfalse
      exfalso
      simp [checkLimitsStep, ← ht, hc] at hfalse
  · refine ⟨?_, ?_, ?_⟩
    · simp [checkLimitsStep, ← ht, hc]
    · intro htrue
      exfalso
      simp [checkLimitsStep, ← ht, hc] at htrue
    · intro _
      simp [checkLimitsStep, ← ht, hc]

/-- C5 counterexample: all six rate-limit headers present but one value
malformed (`abc`) — the update is applied with that value read as 0, not
skipped as the claim states. -/
theorem ratelimit_malformed_applied_cex :
    ratelimitUpdate
      ["x-ratelimit-limit-requests: abc",
       "x-ratelimit-limit-tokens: 20",
       "x-ratelimit-remaining-requests: 30",
       "x-ratelimit-remaining-tokens: 40",
       "x-ratelimit-reset-requests: 500ms",
       "x-ratelimit-reset-tokens: 600ms"]
      = some (0, 20, 30, 40, 500, 600) := by decide

/-- C5 as amended: the rate-limit update is applied exactly when, for each
of the six header names, some response header line starts with that name
and carries a non-empty value; a missing header (or an empty value) skips
the update silently, leaving the ledger untouched, while a malformed
non-empty value does not skip it — release-build `toUL` reads it as 0 and
the update goes through. -/
theorem ratelimit_update_condition (hs : List String) :
    ((ratelimitUpdate hs).isSome = true ↔
      ∀ nm ∈ ratelimitHeaderNames, ∃ h ∈ hs, HeaderProvides h nm.1) ∧
    (ratelimitUpdate hs = none → ∀ now s, ingestHeaders hs now s = s) := by
  constructor
  · rw [ratelimitUpdate]
    by_cases hc : (scanHeaders hs "x-ratelimit-limit-requests: " false).isSome
        ∧ (scanHeaders hs "x-ratelimit-limit-tokens: " false).isSome
        ∧ (scanHeaders hs "x-ratelimit-remaining-requests: " false).isSome
        ∧ (scanHeaders hs "x-ratelimit-remaining-tokens: " false).isSome
        ∧ (scanHeaders hs "x-ratelimit-reset-requests: " true).isSome
        ∧ (scanHeaders hs "x-ratelimit-reset-tokens: " true).isSome
    · rw [if_pos hc]
      simp only [Option.isSome_some, true_iff]
      obtain ⟨h1, h2, h3, h4, h5, h6⟩ := hc
      intro nm hnm
      rcases List.mem_cons.mp hnm with he | hnm
      · exact he ▸ (scanHeaders_isSome hs _ false).mp h1
      rcases List.mem_cons.mp hnm with he | hnm
      · exact he ▸ (scanHeaders_isSome hs _ false).mp h2
      rcases List.mem_cons.mp hnm with he | hnm
      · exact he ▸ (scanHeaders_isSome hs _ false).mp h3
      rcases List.mem_cons.mp hnm with he | hnm
      · exact he ▸ (scanHeaders_isSome hs _ false).mp h4
      rcases List.mem_cons.mp hnm with he | hnm
      · exact he ▸ (scanHeaders_isSome hs _ true).mp h5
      rcases List.mem_cons.mp hnm with he | hnm
      · exact he ▸ (scanHeaders_isSome hs _ true).mp h6
      · exact absurd hnm (List.not_mem_nil nm)
    · rw [if_neg hc]
      simp only [Option.isSome_none, Bool.false_eq_true, false_iff]
      intro hall
      apply hc
      refine ⟨?_, ?_, ?_, ?_, ?_, ?_⟩ <;> rw [scanHeaders_isSome]
      · exact hall ("x-ratelimit-limit-requests: ", false) (by simp [ratelimitHeaderNames])
      · exact hall ("x-ratelimit-limit-tokens: ", false) (by simp [ratelimitHeaderNames])
      · exact hall ("x-ratelimit-remaining-requests: ", false) (by simp [ratelimitHeaderNames])
      · exact hall ("x-ratelimit-remaining-tokens: ", false) (by simp [ratelimitHeaderNames])
      · exact hall ("x-ratelimit-reset-requests: ", true) (by simp [ratelimitHeaderNames])
      · exact hall ("x-ratelimit-reset-tokens: ", true) (by simp [ratelimitHeaderNames])
  · intro hnone now s
    rw [ingestHeaders, hnone]

/-- C6 counterexample: ingest advertises `remaining-requests = 2` with a
5 ms reset; the very next admission pass at `now = 6` — after the reset
deadline, before any further request completes — refills the request
budget to the limit 10, so `requestsRemaining ≤ 2` fails and a ledger
transition before the next ingest has raised the budget. -/
theorem ledger_reset_exceeds_advertised_cex :
    ¬ ((runSteps [((1 : ℚ), 0, 6)] (limitsReceived 10 10 2 2 5 5 0)).requestsRemaining ≤ 2) := by
  norm_num [runSteps, checkLimitsStep, applyResets, applyRequestReset, applyTokenReset,
    limitsReceived]

/-- C6 as amended: ingesting a response advertising remaining budgets `R`
and `T` sets the ledger's budgets to exactly `R` and `T`, and every later
admission pass (with nonnegative ratio) that happens no later than the
ingest's reset deadlines leaves `requestsRemaining ≤ R` and
`tokensRemaining ≤ T`; once a reset deadline has passed, the pass refills
the corresponding budget to the advertised limit instead, which may
exceed `R` or `T`. -/
theorem ledger_below_advertised (LR LT R T rr rt now0 : Nat)
    (trace : List (ℚ × Nat × Nat))
    (hr : ∀ p ∈ trace, 0 ≤ p.1)
    (hnow : ∀ p ∈ trace, p.2.2 ≤ now0 + rr ∧ p.2.2 ≤ now0 + rt) :
    ((limitsReceived LR LT R T rr rt now0).requestsRemaining = R ∧
      (limitsReceived LR LT R T rr rt now0).tokensRemaining = T) ∧
    (runSteps trace (limitsReceived LR LT R T rr rt now0)).requestsRemaining ≤ R ∧
    (runSteps trace (limitsReceived LR LT R T rr rt now0)).tokensRemaining ≤ T := by
  have h := runSteps_le trace (limitsReceived LR LT R T rr rt now0) hr
    (fun q hq => hnow q hq)
  exact ⟨⟨rfl, rfl⟩, h.1, h.2.1⟩

/-- C6 witness: ingest of `R = T = 2` with 5 ms resets, one admission pass
at `now = 3` — both budgets stay at most 2. -/
theorem ledger_below_advertised_witness :
    (∀ p ∈ [((1 : ℚ), 5, 3)], 0 ≤ p.1) ∧
    (∀ p ∈ [((1 : ℚ), 5, 3)], p.2.2 ≤ 0 + 5 ∧ p.2.2 ≤ 0 + 5) ∧
    (((limitsReceived 10 10 2 2 5 5 0).requestsRemaining = 2 ∧
        (limitsReceived 10 10 2 2 5 5 0).tokensRemaining = 2) ∧
      (runSteps [((1 : ℚ), 5, 3)] (limitsReceived 10 10 2 2 5 5 0)).requestsRemaining ≤ 2 ∧
      (runSteps [((1 : ℚ), 5, 3)] (limitsReceived 10 10 2 2 5 5 0)).tokensRemaining ≤ 2) := by
  have hr : ∀ p ∈ [((1 : ℚ), 5, 3)], 0 ≤ p.1 := by norm_num
  have hnow : ∀ p ∈ [((1 : ℚ), 5, 3)], p.2.2 ≤ 0 + 5 ∧ p.2.2 ≤ 0 + 5 := by norm_num
  exact ⟨hr, hnow, ledger_below_advertised 10 10 2 2 5 5 0 _ hr hnow⟩

/-- C7: a parsed body whose `error` member is an object with a string
`message` fails with `[<type>] <message>` when a string `type` is also
present and with just `<message>` otherwise; an `error` member of any
other shape fails with the generic API-error message; no `error` member
passes; and the concrete body
`{"error":{"type":"invalid_request_error","message":"bad"}}` fails with
exactly `[invalid_request_error] bad`. -/
theorem apiRequest_error_surface (reply e : Json) (ty msg : String) :
    (reply.find "error" = some e → e.find "message" = some (Json.str msg) →
      e.find "type" = some (Json.str ty) →
      errorCheck reply = Except.error ("[" ++ ty ++ "] " ++ msg)) ∧
    (reply.find "error" = some e → e.find "message" = some (Json.str msg) →
      (∀ t ∈ e.find "type", t.isStr = false) →
      errorCheck reply = Except.error msg) ∧
    (reply.find "error" = some e →
      (∀ m ∈ e.find "message", m.isStr = false) →
      errorCheck reply = Except.error unknownErrorMsg) ∧
    (reply.find "error" = none → errorCheck reply = Except.ok ()) ∧
    errorCheck errReplyExample = Except.error "[invalid_request_error] bad" := by
  refine ⟨?_, ?_, ?_, ?_, ?_⟩
  · intro h1 h2 h3
    simp [errorCheck, h1, h2, h3]
  · intro h1 h2 h3
    simp only [errorCheck, h1, h2]
    cases hty : e.find "type" with
    | none => simp
    | some t =>
      have := h3 t (by simp [hty])
      cases t <;> simp_all [Json.isStr]
  · intro h1 h2
    simp only [errorCheck, h1]
    cases hm : e.find "message" with
    | none => simp
    | some m =>
      have := h2 m (by simp [hm])
      cases m <;> simp_all [Json.isStr]
  · intro h1
    simp [errorCheck, h1]
  · rfl

/-- C8: the request builder emits no system message when the prompt is
empty, no `max_completion_tokens` key when `maxTokens` is zero, and an
empty body (hence no POST body and no `Content-Type`) when the model or
the text is empty. -/
theorem jsonRequest_boundaries (data : LLMData) :
    (data.prompt = "" → ∀ j, jsonRequest data = some j → hasSystemMessage j = false) ∧
    (data.maxTokens = 0 → ∀ j, jsonRequest data = some j →
      j.find "max_completion_tokens" = none) ∧
    ((data.model = "" ∨ data.text = "") → jsonRequest data = none) := by
  refine ⟨?_, ?_, ?_⟩
  · intro hp j hj
    by_cases hme : data.model = "" ∨ data.text = ""
    · simp [jsonRequest, hme] at hj
    · simp only [jsonRequest, hme, if_false, Option.some.injEq] at hj
      subst hj
      by_cases hmt : data.maxTokens > 0 <;>
        simp [hp, hmt, addKeyValuePair, addKeyValuePairs, initObject,
              hasSystemMessage, Json.find, List.lookup]
  · intro hmt j hj
    by_cases hme : data.model = "" ∨ data.text = ""
    · simp [jsonRequest, hme] at hj
    · simp only [jsonRequest, hme, if_false, Option.some.injEq] at hj
      subst hj
      by_cases hp : data.prompt = "" <;>
        simp [hp, hmt, addKeyValuePair, addKeyValuePairs, initObject,
              Json.find, List.lookup]
  · intro hme
    simp [jsonRequest, hme]

/-- C9: `run` fails with the no-model error (returning no new state) when
no model is selected; the worker count resolves 0 to the hardware
concurrency and that to 1, is always at least 1, and a successful run
carries exactly the resolved count. -/
theorem run_configError_and_workerCount (api : String → Json) (order : List Nat)
    (hardwareConcurrency : Nat) (c : Client) :
    (c.currentModel = "" →
      runModel api order hardwareConcurrency c = Except.error "No model has been selected") ∧
    (c.maxThreads = 0 →
      calculateMaxThreads c.maxThreads hardwareConcurrency
        = if hardwareConcurrency = 0 then 1 else hardwareConcurrency) ∧
    1 ≤ calculateMaxThreads c.maxThreads hardwareConcurrency ∧
    (∀ c2, runModel api order hardwareConcurrency c = Except.ok c2 →
      c2.maxThreads = calculateMaxThreads c.maxThreads hardwareConcurrency) := by
  refine ⟨?_, ?_, ?_, ?_⟩
  · intro h
    simp [runModel, h]
  · intro h
    by_cases hw : hardwareConcurrency = 0 <;> simp [calculateMaxThreads, h, hw]
  · by_cases hm : c.maxThreads = 0 <;> by_cases hw : hardwareConcurrency = 0 <;>
      simp [calculateMaxThreads, hm, hw] <;> omega
  · intro c2 h2
    by_cases hm : c.currentModel = ""
    · simp [runModel, hm] at h2
    · simp only [runModel, hm, if_false] at h2
      cases hw : writeAll api c.inputs order (List.replicate c.inputs.length "") with
      | ok res => rw [hw] at h2; simp at h2; rw [← h2]
      | error e => rw [hw] at h2; simp at h2

/-- C10: a job with empty text builds an empty body, and the request then
carries no POST body, no `Content-Type` header and none of the configured
extra headers — the header list is exactly the Authorization bearer
line. -/
theorem bodylessRequestHeaders (data : LLMData) (h : data.text = "") :
    jsonRequest data = none ∧
    requestHeaderList data = ["Authorization: Bearer " ++ data.apiKey] := by
  have hb : jsonRequest data = none := by simp [jsonRequest, h]
  exact ⟨hb, by simp [requestHeaderList, hb]⟩

/-- C10 witness: the models catalog fetch (empty model and text) with
configured extra headers sends only the bearer header. -/
theorem bodylessRequestHeaders_witness :
    modelsFetchData.text = "" ∧
    (jsonRequest modelsFetchData = none ∧
      requestHeaderList modelsFetchData
        = ["Authorization: Bearer " ++ modelsFetchData.apiKey]) :=
  ⟨rfl, bodylessRequestHeaders modelsFetchData rfl⟩

end LLMSpec
